import Mathlib

/-!
Shallow embedding of the interval / interval-set core of the antlr4 Rust
runtime (`src/antlr4/runtime/misc/interval.rs`) and proofs about it.

Conventions of the embedding:
* Rust `i32` values are modelled as `Int`; where a statement's truth
  could depend on `i32` overflow (the `size` accumulation), the
  arithmetic is modelled with explicit debug-build overflow checks, in
  the same way as the `usize` arithmetic below.
* Rust `usize` index arithmetic is modelled as `Nat` with an explicit
  `Except.error "attempt to subtract with overflow"` where the source
  performs a subtraction that underflows (debug-build panic semantics).
* `&mut self` methods are modelled as pure functions returning the new
  set; `Result<_, E>` becomes `Except E _`.
* `while` loops over indices are modelled either by structural recursion
  on the list or by fuel-indexed recursion with a fuel bound that the
  loop can never exhaust on the inputs considered.
-/

namespace Antlr4

/-- Embeds `struct Interval { a: i32, b: i32 }`. -/
structure Interval where
  a : Int
  b : Int
deriving DecidableEq, Repr

/-- Embeds `enum IntervalSetError { CantAlterReadOnly }`. -/
inductive IntervalSetError where
  | CantAlterReadOnly
deriving DecidableEq, Repr

/-- Embeds `Interval::contains`: `item >= self.a && item <= self.b`. -/
def Interval.contains (self : Interval) (item : Int) : Bool :=
  self.a ≤ item && item ≤ self.b

/-- Embeds `Interval::length`: returns `0` when `b < a`, else `b - a`. -/
def Interval.length (self : Interval) : Int :=
  if self.b < self.a then 0 else self.b - self.a

/-- Embeds `Interval::starts_before_disjoint`. -/
def Interval.starts_before_disjoint (self other : Interval) : Bool :=
  self.a < other.a && self.b < other.a

/-- Embeds `Interval::starts_before_non_disjoint`. -/
def Interval.starts_before_non_disjoint (self other : Interval) : Bool :=
  self.a ≤ other.a && other.a ≤ self.b

/-- Embeds `Interval::starts_after_disjoint`: `self.a > other.b`. -/
def Interval.starts_after_disjoint (self other : Interval) : Bool :=
  other.b < self.a

/-- Embeds `Interval::starts_after_non_disjoint`. -/
def Interval.starts_after_non_disjoint (self other : Interval) : Bool :=
  other.a < self.a && self.a ≤ other.b

/-- Embeds `Interval::disjoint`. -/
def Interval.disjoint (self other : Interval) : Bool :=
  self.starts_before_disjoint other || self.starts_after_disjoint other

/-- Embeds `Interval::adjacent`: `self.a == other.b + 1 || self.b == other.a - 1`. -/
def Interval.adjacent (self other : Interval) : Bool :=
  self.a = other.b + 1 || self.b = other.a - 1

/-- Embeds `Interval::properly_contains`. -/
def Interval.properly_contains (self other : Interval) : Bool :=
  self.a ≤ other.a && other.b ≤ self.b

/-- Embeds `Interval::union`: `min(a, a') .. max(b, b')`. -/
def Interval.union (self other : Interval) : Interval :=
  Interval.mk (min self.a other.a) (max self.b other.b)

/-- Embeds `Interval::intersection`: `max(a, a') .. min(b, b')`. -/
def Interval.intersection (self other : Interval) : Interval :=
  Interval.mk (max self.a other.a) (min self.b other.b)

/-- Embeds `impl fmt::Display for Interval`: always `"{a}..{b}"`. -/
def Interval.display (iv : Interval) : String :=
  toString iv.a ++ ".." ++ toString iv.b

/-- Embeds `struct IntervalSet { intervals: Vec<Interval>, read_only: bool }`. -/
structure IntervalSet where
  intervals : List Interval
  read_only : Bool
deriving DecidableEq, Repr

/-- Embeds `IntervalSet::new`. -/
def IntervalSet.new : IntervalSet :=
  IntervalSet.mk [] false

/-- Embeds `IntervalSet::new_from_intervals`. -/
def IntervalSet.new_from_intervals (ivs : List Interval) : IntervalSet :=
  IntervalSet.mk ivs false

/-- Embeds `IntervalSet::of`: unconditionally `self.intervals.push(Interval::new(a, b))`. -/
def IntervalSet.of (s : IntervalSet) (a b : Int) : IntervalSet :=
  { s with intervals := s.intervals ++ [Interval.mk a b] }

/-- Embeds `IntervalSet::of_same`: unconditionally pushes `Interval::new(a, a)`. -/
def IntervalSet.of_same (s : IntervalSet) (a : Int) : IntervalSet :=
  { s with intervals := s.intervals ++ [Interval.mk a a] }

/-- Embeds `IntervalSet::clear`; the source reports the read-only failure
as `Err(&str)`, modelled here by the same error enum. -/
def IntervalSet.clear (s : IntervalSet) : Except IntervalSetError IntervalSet :=
  if s.read_only then Except.error IntervalSetError.CantAlterReadOnly
  else Except.ok { s with intervals := [] }

/-- Embeds `IntervalSet::is_empty`: `self.intervals.len() == 0`. -/
def IntervalSet.is_empty (s : IntervalSet) : Bool :=
  s.intervals.length = 0

/-- Embeds `IntervalSet::remove`: the source body is an empty `// TODO`
stub taking `&mut self` and returning `()`, so it alters nothing and has
no failure channel. -/
def IntervalSet.remove (s : IntervalSet) (_el : Int) : IntervalSet :=
  s

/-- Embeds the inner `while` loop of `IntervalSet::add` (lines 179-190):
after `intervals[index]` was overwritten with `bigger`, repeatedly absorb
the following interval unless it is both non-adjacent to and disjoint
from `bigger` (the original union, unchanged inside the loop); the value
stored at the merge position is `bigger.union(next)` of the last absorbed
neighbour. `current` is the value currently stored at the merge position. -/
def mergeLoop (bigger current : Interval) : List Interval → List Interval
  | [] => [current]
  | next :: rest =>
    if !(bigger.adjacent next) && bigger.disjoint next then
      current :: next :: rest
    else
      mergeLoop bigger (bigger.union next) rest

/-- Embeds the `for index in 0..len` scan of `IntervalSet::add`
(lines 166-199): equality is a no-op; adjacency/overlap merges (with the
cascade `mergeLoop`); `starts_before_disjoint` inserts before; when the
scan exhausts the source returns `Ok(())` WITHOUT appending. -/
def addScan (addition : Interval) : List Interval → List Interval
  | [] => []
  | r :: rest =>
    if addition = r then
      r :: rest
    else if addition.adjacent r || !(addition.disjoint r) then
      mergeLoop (addition.union r) (addition.union r) rest
    else if addition.starts_before_disjoint r then
      addition :: r :: rest
    else
      r :: addScan addition rest

/-- Embeds `IntervalSet::add`. -/
def IntervalSet.add (s : IntervalSet) (addition : Interval) :
    Except IntervalSetError IntervalSet :=
  if s.read_only then Except.error IntervalSetError.CantAlterReadOnly
  else Except.ok { s with intervals := addScan addition s.intervals }

/-- Embeds the `for m in iset.intervals` loop of `IntervalSet::add_set`,
propagating the first error as the `?` operator does. -/
def addAll : IntervalSet → List Interval → Except IntervalSetError IntervalSet
  | s, [] => Except.ok s
  | s, m :: rest =>
    match s.add m with
    | Except.ok s2 => addAll s2 rest
    | Except.error e => Except.error e

/-- Embeds `IntervalSet::add_set`. -/
def IntervalSet.add_set (s iset : IntervalSet) :
    Except IntervalSetError IntervalSet :=
  if s.read_only then Except.error IntervalSetError.CantAlterReadOnly
  else addAll s iset.intervals

/-- Embeds `IntervalSet::complement_range` is omitted; this embeds the
two-pointer `while` loop of `IntervalSet::and` (lines 241-263).  Each
iteration advances `i` or `j` by the branch the source takes; `fuel`
bounds the iteration count (the loop advances `i + j` on every reachable
iteration, so `my_size + their_size + 1` fuel is never exhausted).
`addOk` models `let _ = intersection.add(...)`, which discards errors. -/
def addOk (acc : IntervalSet) (iv : Interval) : IntervalSet :=
  match acc.add iv with
  | Except.ok s => s
  | Except.error _ => acc

/-- Embeds the loop body of `IntervalSet::and`; see `addOk` above. -/
def andLoop (mine theirs : List Interval) :
    Nat → Nat → Nat → IntervalSet → IntervalSet
  | 0, _, _, acc => acc
  | Nat.succ fuel, i, j, acc =>
    if h : i < mine.length ∧ j < theirs.length then
      let m := mine.get ⟨i, h.1⟩
      let t := theirs.get ⟨j, h.2⟩
      if m.starts_before_disjoint t then
        andLoop mine theirs fuel (i + 1) j acc
      else if t.starts_before_disjoint m then
        andLoop mine theirs fuel i (j + 1) acc
      else if m.properly_contains t then
        andLoop mine theirs fuel i (j + 1) (addOk acc (m.intersection t))
      else if t.properly_contains m then
        andLoop mine theirs fuel i (j + 1) (addOk acc (m.intersection t))
      else if !(m.disjoint t) then
        let acc2 := addOk acc (m.intersection t)
        if m.starts_after_non_disjoint t then
          andLoop mine theirs fuel i (j + 1) acc2
        else if t.starts_after_non_disjoint m then
          andLoop mine theirs fuel (i + 1) j acc2
        else
          andLoop mine theirs fuel i j acc2
      else
        andLoop mine theirs fuel i j acc
    else acc

/-- Embeds `IntervalSet::and(&self, other: &Option<&IntervalSet>)`. -/
def IntervalSet.and (s : IntervalSet) (other : Option IntervalSet) :
    Option IntervalSet :=
  match other with
  | none => none
  | some o =>
    some (andLoop s.intervals o.intervals
      (s.intervals.length + o.intervals.length + 1) 0 0 IntervalSet.new)

/-- Embeds the binary-search `while l <= r` loop of `IntervalSet::contains`
(lines 276-288).  The indices are `usize`; `r = m - 1` at `m = 0` is the
source subtracting below zero, modelled as the overflow error.  The loop
halves `r + 1 - l` each iteration, so `len + 1` fuel is never exhausted. -/
def containsGo (ivs : List Interval) (el : Int) :
    Nat → Nat → Nat → Except String Bool
  | 0, _, _ => Except.error "fuel exhausted"
  | Nat.succ fuel, l, r =>
    if l ≤ r then
      match ivs[(l + r) / 2]? with
      | none => Except.error "index out of bounds"
      | some ival =>
        if ival.b < el then
          containsGo ivs el fuel ((l + r) / 2 + 1) r
        else if el < ival.a then
          if (l + r) / 2 = 0 then
            Except.error "attempt to subtract with overflow"
          else
            containsGo ivs el fuel l ((l + r) / 2 - 1)
        else Except.ok true
    else Except.ok false

/-- Embeds `IntervalSet::contains`: `let mut r = n - 1` is a `usize`
subtraction, which already goes below zero when the set is empty. -/
def IntervalSet.contains (s : IntervalSet) (el : Int) : Except String Bool :=
  if s.intervals.length = 0 then
    Except.error "attempt to subtract with overflow"
  else
    containsGo s.intervals el (s.intervals.length + 1) 0 (s.intervals.length - 1)

/-- Smallest `i32` value, `-2^31`. -/
def i32min : Int := -(2 ^ 31)

/-- Largest `i32` value, `2^31 - 1`. -/
def i32max : Int := 2 ^ 31 - 1

/-- Checked `i32` arithmetic step: the source computes with `i32`, which
in debug builds panics as soon as an operation leaves the `i32` range;
modelled, like the `usize` subtractions in `contains`, as an explicit
overflow error carrying the panic message of the offending operation. -/
def i32chk (msg : String) (x : Int) : Except String Int :=
  if x < i32min ∨ i32max < x then Except.error msg
  else Except.ok x

/-- Embeds the summation loop of `IntervalSet::size` (lines 307-310):
`n += ival.b - ival.a + 1` over `i32`, every operation overflow-checked
in evaluation order (`b - a`, then `+ 1`, then the accumulation). -/
def sizeLoop : List Interval → Int → Except String Int
  | [], n => Except.ok n
  | iv :: rest, n =>
    match i32chk "attempt to subtract with overflow" (iv.b - iv.a) with
    | Except.error e => Except.error e
    | Except.ok d =>
      match i32chk "attempt to add with overflow" (d + 1) with
      | Except.error e => Except.error e
      | Except.ok d1 =>
        match i32chk "attempt to add with overflow" (n + d1) with
        | Except.error e => Except.error e
        | Except.ok n2 => sizeLoop rest n2

/-- Embeds `IntervalSet::size`: a one-interval set short-circuits to
`b - a + 1`; otherwise the loop sums `b - a + 1` over all intervals.
All `i32` arithmetic is overflow-checked as in `sizeLoop`. -/
def IntervalSet.size (s : IntervalSet) : Except String Int :=
  match s.intervals with
  | [iv] =>
    match i32chk "attempt to subtract with overflow" (iv.b - iv.a) with
    | Except.error e => Except.error e
    | Except.ok d => i32chk "attempt to add with overflow" (d + 1)
  | ivs => sizeLoop ivs 0

/-- Embeds the Rust inclusive range `ival.a..=ival.b` iterated by
`IntervalSet::to_integer_list`: empty when `b < a`. -/
def intRange (a b : Int) : List Int :=
  (List.range (b - a + 1).toNat).map (fun k : Nat => a + (k : Int))

/-- Embeds the nested loops of `IntervalSet::to_integer_list`. -/
def intsOf : List Interval → List Int
  | [] => []
  | iv :: rest => intRange iv.a iv.b ++ intsOf rest

/-- Embeds `IntervalSet::to_integer_list`. -/
def IntervalSet.to_integer_list (s : IntervalSet) : List Int :=
  intsOf s.intervals

/-- Models `Vec::insert(idx, x)`: shifts the suffix right by one. -/
def insertAt (xs : List Interval) (n : Nat) (x : Interval) : List Interval :=
  xs.take n ++ x :: xs.drop n

/-- Embeds the `while` loop of `subtract_intervalsets` (lines 369-425):
walks a cursor over the (mutable) result list and one over the
subtrahend; splits, trims or deletes the current result interval.  Every
iteration advances a cursor or shortens the list (a split is followed by
a forced subtrahend advance), so the generous fuel passed below is never
exhausted. -/
def subtractGo (right : List Interval) :
    Nat → List Interval → Nat → Nat → List Interval
  | 0, result, _, _ => result
  | Nat.succ fuel, result, result_i, right_i =>
    if h : result_i < result.length ∧ right_i < right.length then
      let ri := result.get ⟨result_i, h.1⟩
      let rt := right.get ⟨right_i, h.2⟩
      if rt.b < ri.a then
        subtractGo right fuel result result_i (right_i + 1)
      else if ri.b < rt.a then
        subtractGo right fuel result (result_i + 1) right_i
      else if ri.a < rt.a then
        if rt.b < ri.b then
          subtractGo right fuel
            (insertAt (result.set result_i (Interval.mk ri.a (rt.a - 1)))
              (result_i + 1) (Interval.mk (rt.b + 1) ri.b))
            (result_i + 1) right_i
        else
          subtractGo right fuel
            (result.set result_i (Interval.mk ri.a (rt.a - 1)))
            (result_i + 1) right_i
      else
        if rt.b < ri.b then
          subtractGo right fuel
            (result.set result_i (Interval.mk (rt.b + 1) ri.b))
            result_i (right_i + 1)
        else
          subtractGo right fuel (result.eraseIdx result_i) result_i right_i
    else result

/-- Embeds the free function `subtract_intervalsets`. -/
def subtract_intervalsets (left right : IntervalSet) : IntervalSet :=
  if left.is_empty then IntervalSet.new
  else
    let result := IntervalSet.new_from_intervals left.intervals
    if right.is_empty then result
    else
      { result with
        intervals :=
          subtractGo right.intervals
            (2 * left.intervals.length + 3 * right.intervals.length + 2)
            result.intervals 0 0 }

/-- Embeds `IntervalSet::subtract`. -/
def IntervalSet.subtract (s other : IntervalSet) : IntervalSet :=
  subtract_intervalsets s other

/-- Embeds `IntervalSet::complement`. -/
def IntervalSet.complement (s vocab : IntervalSet) : Option IntervalSet :=
  if vocab.is_empty then none
  else some (vocab.subtract s)

/-- Models `Vec::join(", ")` as used by `impl fmt::Display for IntervalSet`. -/
def joinSep (sep : String) : List String → String
  | [] => ""
  | [x] => x
  | x :: y :: xs => x ++ sep ++ joinSep sep (y :: xs)

/-- Embeds `impl fmt::Display for IntervalSet`: each interval rendered by
`Interval.display`, joined with `", "`, wrapped in square brackets. -/
def IntervalSet.display (s : IntervalSet) : String :=
  "[" ++ joinSep ", " (s.intervals.map Interval.display) ++ "]"

/-- Modelled from the spec: the §3 invariant on a stored sequence whose
intervals are nonempty — sorted ascending, pairwise non-overlapping and
non-adjacent, i.e. each interval ends at least two below the next start. -/
def chainOk : List Interval → Bool
  | [] => true
  | [_] => true
  | x :: y :: rest => (x.b + 1 < y.a) && chainOk (y :: rest)

/-- Modelled from the spec (amended form of the display sentence): each
interval — a singleton included — is rendered as `a..b`, the renderings
are comma-joined in sequence order and wrapped in square brackets. -/
def renderAmended : List Interval → String
  | [] => ""
  | [iv] => toString iv.a ++ ".." ++ toString iv.b
  | iv :: y :: rest =>
    toString iv.a ++ ".." ++ toString iv.b ++ ", " ++ renderAmended (y :: rest)

/-- Modelled from the spec (amended display sentence), set level. -/
def displayAmended (s : IntervalSet) : String :=
  "[" ++ renderAmended s.intervals ++ "]"

/-- Sum of `b - a + 1` over a list of intervals (proof helper). -/
def sumLens : List Interval → Int
  | [] => 0
  | iv :: rest => (iv.b - iv.a + 1) + sumLens rest

lemma i32chk_ok {msg : String} {x y : Int} (h : i32chk msg x = Except.ok y) :
    y = x := by
  unfold i32chk at h
  split at h
  · exact absurd h (by simp)
  · exact (Except.ok.inj h).symm

lemma sizeLoop_ok (l : List Interval) :
    ∀ n m : Int, sizeLoop l n = Except.ok m → m = n + sumLens l := by
  induction l with
  | nil =>
    intro n m h
    simp only [sizeLoop] at h
    simp [sumLens, (Except.ok.inj h).symm]
  | cons iv rest ih =>
    intro n m h
    simp only [sizeLoop] at h
    split at h
    · simp at h
    · rename_i d h1
      split at h
      · simp at h
      · rename_i d1 h2
        split at h
        · simp at h
        · rename_i n2 h3
          have hd := i32chk_ok h1
          have hd1 := i32chk_ok h2
          have hn2 := i32chk_ok h3
          have hm := ih n2 m h
          simp only [sumLens]
          omega

lemma size_ok (l : List Interval) (ro : Bool) (n : Int)
    (h : IntervalSet.size ⟨l, ro⟩ = Except.ok n) : n = sumLens l := by
  match l with
  | [] =>
    have := sizeLoop_ok [] 0 n h
    simpa using this
  | [iv] =>
    simp only [IntervalSet.size] at h
    split at h
    · simp at h
    · rename_i d h1
      have hd := i32chk_ok h1
      have hn := i32chk_ok h
      simp only [sumLens]
      omega
  | iv1 :: iv2 :: rest =>
    have := sizeLoop_ok (iv1 :: iv2 :: rest) 0 n h
    simpa using this

lemma intRange_length (a b : Int) (h : a ≤ b) :
    ((intRange a b).length : Int) = b - a + 1 := by
  unfold intRange
  rw [List.length_map, List.length_range]
  omega

lemma intsOf_length (l : List Interval) (h : ∀ iv ∈ l, iv.a ≤ iv.b) :
    ((intsOf l).length : Int) = sumLens l := by
  induction l with
  | nil => simp [intsOf, sumLens]
  | cons iv rest ih =>
    have h1 := intRange_length iv.a iv.b (h iv (by simp))
    have h2 := ih (fun x hx => h x (by simp [hx]))
    simp only [intsOf, sumLens, List.length_append]
    push_cast
    rw [h1, h2]

lemma renderAmended_eq (l : List Interval) :
    joinSep ", " (l.map Interval.display) = renderAmended l := by
  induction l with
  | nil => rfl
  | cons iv rest ih =>
    cases rest with
    | nil => rfl
    | cons y rest2 =>
      show Interval.display iv ++ ", " ++
        joinSep ", " ((y :: rest2).map Interval.display) = _
      rw [ih]
      rfl

/-- C6: subtracting the set containing `[3,5]` from the set containing
`[1,10]` via `subtract` splits the overlapped interval into the left
remainder `[1,2]` and the right remainder `[6,10]`. -/
theorem subtract_split_scenario :
    IntervalSet.subtract ⟨[⟨1, 10⟩], false⟩ ⟨[⟨3, 5⟩], false⟩ =
      ⟨[⟨1, 2⟩, ⟨6, 10⟩], false⟩ := by
  decide

/-- C7: `complement` returns `none` exactly when the universe set is
empty, and otherwise returns `some` of the universe with `self`
subtracted from it (`vocab.subtract(self)`). -/
theorem complement_none_iff_empty_universe (S U : IntervalSet) :
    (S.complement U = none ↔ U.intervals = []) ∧
    (U.intervals ≠ [] → S.complement U = some (U.subtract S)) := by
  rcases U with ⟨ivs, ro⟩
  cases ivs with
  | nil => simp [IntervalSet.complement, IntervalSet.is_empty]
  | cons iv rest => simp [IntervalSet.complement, IntervalSet.is_empty]

/-- C7 witness: the theorem applied at a concrete nonempty universe. -/
theorem complement_none_iff_empty_universe_witness :
    IntervalSet.complement ⟨[⟨3, 5⟩], false⟩ ⟨[⟨1, 10⟩], false⟩ =
      some (IntervalSet.subtract ⟨[⟨1, 10⟩], false⟩ ⟨[⟨3, 5⟩], false⟩) :=
  (complement_none_iff_empty_universe ⟨[⟨3, 5⟩], false⟩ ⟨[⟨1, 10⟩], false⟩).2
    (by decide)

/-- C8 counterexample: for the set built from the single raw interval
`{a := 5, b := 1}` (constructible via `new_from_intervals` or `of`),
`size()` completes without overflow and returns `-3` while
`to_integer_list()` has length `0`. -/
theorem size_list_mismatch :
    ¬ (IntervalSet.size ⟨[⟨5, 1⟩], false⟩ =
        Except.ok ((IntervalSet.to_integer_list ⟨[⟨5, 1⟩], false⟩).length : Int)) := by
  intro h
  have e1 : IntervalSet.size ⟨[⟨5, 1⟩], false⟩ = Except.ok (-3 : Int) := rfl
  have e2 : ((IntervalSet.to_integer_list ⟨[⟨5, 1⟩], false⟩).length : Int) = 0 := rfl
  rw [e1, e2] at h
  exact absurd (Except.ok.inj h) (by norm_num)

/-- C8 (amended): for every `IntervalSet` whose stored intervals are all
nonempty (`a ≤ b`), whenever the `i32` summation of `size()` completes
without overflow and returns `n`, that `n` equals the length of
`to_integer_list()`. -/
theorem size_eq_to_integer_list_length (s : IntervalSet)
    (h : ∀ iv ∈ s.intervals, iv.a ≤ iv.b) (n : Int)
    (hn : IntervalSet.size s = Except.ok n) :
    n = ((IntervalSet.to_integer_list s).length : Int) := by
  rw [size_ok s.intervals s.read_only n hn]
  show sumLens s.intervals = ((intsOf s.intervals).length : Int)
  rw [intsOf_length s.intervals h]

/-- C8 witness: the amended theorem applied at a concrete two-interval
set, both hypotheses discharged concretely. -/
theorem size_eq_to_integer_list_length_witness :
    (4 : Int) = ((IntervalSet.to_integer_list ⟨[⟨1, 3⟩, ⟨5, 5⟩], false⟩).length : Int) :=
  size_eq_to_integer_list_length ⟨[⟨1, 3⟩, ⟨5, 5⟩], false⟩ (by decide) 4 rfl

/-- C9 counterexample: the set holding only the one-integer interval
`[3,3]` displays as `"[3..3]"`, not as the bare number form `"[3]"`
the claim describes. -/
theorem display_singleton_not_bare :
    IntervalSet.display ⟨[⟨3, 3⟩], false⟩ ≠ "[3]" := by
  decide

/-- C9 (amended): the display form of every `IntervalSet` is the
bracketed comma-joined list of its stored intervals in sequence order,
with every interval — those covering exactly one integer included —
rendered as `a..b`. -/
theorem display_joins_all_as_ranges (s : IntervalSet) :
    IntervalSet.display s = displayAmended s := by
  rcases s with ⟨ivs, ro⟩
  show "[" ++ joinSep ", " (ivs.map Interval.display) ++ "]" = _
  rw [renderAmended_eq]
  rfl

/-- C9 amended-theorem witness: applied at a concrete singleton set. -/
theorem display_joins_all_as_ranges_witness :
    IntervalSet.display ⟨[⟨3, 3⟩], false⟩ = displayAmended ⟨[⟨3, 3⟩], false⟩ :=
  display_joins_all_as_ranges ⟨[⟨3, 3⟩], false⟩

/-- C10: `of` pushes the raw interval `{a, b}` onto the end of the
sequence with no read-only check, no sorting and no merging (and
`of_same` does the same with `{a, a}`); in particular applying it to a
read-only, already-sorted set yields, without any reported failure, a
sequence violating the sorted/disjoint/non-adjacent invariant. -/
theorem of_pushes_raw_unchecked :
    (∀ (s : IntervalSet) (a b : Int),
      IntervalSet.of s a b = ⟨s.intervals ++ [⟨a, b⟩], s.read_only⟩) ∧
    (∀ (s : IntervalSet) (a : Int),
      IntervalSet.of_same s a = ⟨s.intervals ++ [⟨a, a⟩], s.read_only⟩) ∧
    chainOk (IntervalSet.of ⟨[⟨5, 6⟩], true⟩ 1 2).intervals = false :=
  ⟨fun _ _ _ => rfl, fun _ _ => rfl, by decide⟩

/-- C1: when the scan of `add` exhausts the stored intervals without
merging or inserting — in particular on the empty set, or when the
addition lies disjoint and non-adjacent past every stored interval —
the source returns `Ok(())` without appending, so the addition is
silently dropped (the spec says it is appended at the end). -/
theorem add_exhausted_scan_drops_addition :
    IntervalSet.add ⟨[], false⟩ ⟨1, 2⟩ = Except.ok ⟨[], false⟩ ∧
    IntervalSet.add ⟨[⟨1, 2⟩], false⟩ ⟨10, 12⟩ =
      Except.ok ⟨[⟨1, 2⟩], false⟩ :=
  ⟨rfl, rfl⟩

/-- C2: `contains` is not total: `let mut r = n - 1` underflows `usize`
on the empty set, and `r = m - 1` underflows at midpoint `0`, e.g. when
the queried value lies below the set minimum — both are modelled as the
subtract-with-overflow failure. -/
theorem contains_underflow_fails :
    (∀ el : Int, IntervalSet.contains ⟨[], false⟩ el =
      Except.error "attempt to subtract with overflow") ∧
    IntervalSet.contains ⟨[⟨5, 10⟩], false⟩ 3 =
      Except.error "attempt to subtract with overflow" :=
  ⟨fun _ => rfl, rfl⟩

/-- C3: intersecting `{[1,10]}` with `{[5,15]}` via `and` yields the
EMPTY set, not `{[5,10]}`: the loop computes the intersection `[5,10]`
but hands it to `add`, whose exhausted scan on the empty accumulator
drops it. -/
theorem and_scenario6_result_empty :
    IntervalSet.and ⟨[⟨1, 10⟩], false⟩ (some ⟨[⟨5, 15⟩], false⟩) =
      some ⟨[], false⟩ := by
  decide

/-- C4: on a read-only set, `add`, `add_set` and `clear` do reject the
mutation with a reported failure, but `remove` is an empty stub: it
performs no read-only check, changes nothing and has no failure channel
at all, so the claim fails for `remove`. -/
theorem readonly_remove_reports_nothing :
    IntervalSet.remove ⟨[⟨1, 2⟩], true⟩ 1 = ⟨[⟨1, 2⟩], true⟩ ∧
    IntervalSet.add ⟨[⟨1, 2⟩], true⟩ ⟨5, 6⟩ =
      Except.error IntervalSetError.CantAlterReadOnly ∧
    IntervalSet.add_set ⟨[⟨1, 2⟩], true⟩ ⟨[⟨5, 6⟩], false⟩ =
      Except.error IntervalSetError.CantAlterReadOnly ∧
    IntervalSet.clear ⟨[⟨1, 2⟩], true⟩ =
      Except.error IntervalSetError.CantAlterReadOnly :=
  ⟨rfl, rfl, rfl, rfl⟩

/-- C5: `Interval::length` returns `b - a`, not the `b - a + 1` integers
actually covered under the inclusive convention the rest of the file
uses: `[1,5]` covers five integers but `length` reports `4`, and the
singleton `[1,1]` contains `1` yet `length` reports `0`. -/
theorem length_is_off_by_one :
    Interval.length ⟨1, 5⟩ = 4 ∧ (intRange 1 5).length = 5 ∧
    Interval.length ⟨1, 1⟩ = 0 ∧ Interval.contains ⟨1, 1⟩ 1 = true := by
  refine ⟨by decide, by decide, by decide, by decide⟩

/-- Sanity: the embedding reproduces the four `IntervalSet` unit tests
of the source file (`test_interval_set_merge`, `_extended_merge`,
`_middle`, `_first`). -/
theorem add_matches_source_tests :
    IntervalSet.add ⟨[⟨1, 4⟩, ⟨7, 8⟩], false⟩ ⟨2, 6⟩ =
      Except.ok ⟨[⟨1, 8⟩], false⟩ ∧
    IntervalSet.add ⟨[⟨1, 4⟩, ⟨7, 8⟩, ⟨10, 12⟩], false⟩ ⟨2, 13⟩ =
      Except.ok ⟨[⟨1, 13⟩], false⟩ ∧
    IntervalSet.add ⟨[⟨1, 4⟩, ⟨10, 12⟩], false⟩ ⟨6, 8⟩ =
      Except.ok ⟨[⟨1, 4⟩, ⟨6, 8⟩, ⟨10, 12⟩], false⟩ ∧
    IntervalSet.add ⟨[⟨4, 5⟩, ⟨10, 12⟩], false⟩ ⟨1, 2⟩ =
      Except.ok ⟨[⟨1, 2⟩, ⟨4, 5⟩, ⟨10, 12⟩], false⟩ :=
  ⟨rfl, rfl, rfl, rfl⟩

end Antlr4
